import Mathlib

/-!
Shallow embedding of the designatedlands processing pipeline
(`designatedlands.py` and `designatedlands/cli.py`).

Conventions of the embedding:
- CSV rows (`sources.csv`) become `Source` records; the `alias` column is
  rendered `src_alias` because `alias` is reserved in Lean.
- The postgres database is a list of named tables whose rows are abstract
  identifiers (`Nat`); geometries are abstract finite point sets
  (`Finset Nat`), with union / difference / emptiness the only operations
  the modelled code performs on them.
- SQL queries shipped outside the two python files (the `db.queries[...]`
  templates) are modelled from the spec's description of their effect and
  are marked as such in their doc comments.
- Results of geometry-engine computations that the code merely stores
  (e.g. the rows produced by the tiling query for one source) are taken as
  function parameters, keeping the control flow - filters, ordering,
  guards, error paths - exactly as in the python source.
-/

namespace DesignatedLands

/-- One row of `sources.csv` after `int()` coercion of the `hierarchy`
column, as consumed by `read_csv` (designatedlands.py:84).  Only the
columns the modelled code inspects are kept.  `src_alias` is the csv
column `alias`. -/
structure Source where
  src_alias : String
  hierarchy : Nat
  exclude : String
  preprocess_operation : String
  preprocess_layer_alias : String
  category : String
  deriving Repr, DecidableEq

/-- Python's `str.zfill(2)`: pad a string with leading zeros to length 2. -/
def zfill2 (s : String) : String :=
  if s.length < 2 then String.mk (List.replicate (2 - s.length) '0') ++ s else s

/-- A source row extended with the derived table names that `read_csv`
adds (designatedlands.py:98-105). -/
structure SourceRow extends Source where
  input_table : String
  tiled_table : String
  cleaned_table : String
  deriving Repr, DecidableEq

/-- The per-row enrichment step of `read_csv`: derive the `a`/`b`/`c`
table names from the zero-padded hierarchy and the alias
(designatedlands.py:99-105). -/
def addTableNames (s : Source) : SourceRow :=
  let h := zfill2 (toString s.hierarchy)
  { toSource := s
    input_table := "a" ++ h ++ "_" ++ s.src_alias
    tiled_table := "b" ++ h ++ "_" ++ s.src_alias
    cleaned_table := "c" ++ h ++ "_" ++ s.src_alias }

/-- Comparison used by the final `sorted(source_list, key=...)` call of
`read_csv` (designatedlands.py:107). -/
def hierLE (a b : SourceRow) : Prop := a.hierarchy ≤ b.hierarchy

instance : DecidableRel hierLE := fun a b => Nat.decLe a.hierarchy b.hierarchy

/-- `read_csv` (designatedlands.py:84-107): enrich every csv row with the
derived table names, then return the list stably sorted by hierarchy
(python's `sorted` is a stable ascending sort; `List.insertionSort` with
`≤` on the key is stable in the same sense). -/
def read_csv (source_csv : List Source) : List SourceRow :=
  List.insertionSort hierLE (source_csv.map addTableNames)

/-- `read_csv` output is sorted ascending by hierarchy. -/
theorem read_csv_sorted (source_csv : List Source) :
    List.Sorted hierLE (read_csv source_csv) := by
  have htot : IsTotal SourceRow hierLE := ⟨fun a b => Nat.le_total a.hierarchy b.hierarchy⟩
  have htrans : IsTrans SourceRow hierLE :=
    ⟨fun _ _ _ hab hbc => Nat.le_trans hab hbc⟩
  exact @List.sorted_insertionSort SourceRow hierLE _ htot htrans _

/-- `read_csv` output is a permutation of the enriched input rows. -/
theorem read_csv_perm (source_csv : List Source) :
    (read_csv source_csv).Perm (source_csv.map addTableNames) :=
  List.perm_insertionSort hierLE (source_csv.map addTableNames)

/-- Sorted lists split cleanly at a hierarchy threshold: the rows below
`r` followed by the rows at or above `r` recover the list. -/
theorem sorted_filter_split (r : Nat) :
    ∀ l : List SourceRow, List.Sorted hierLE l →
      l.filter (fun s => s.hierarchy < r) ++ l.filter (fun s => r ≤ s.hierarchy) = l := by
  intro l
  induction l with
  | nil => intro _; rfl
  | cons a t ih =>
    intro hs
    rw [List.sorted_cons] at hs
    obtain ⟨ha, ht⟩ := hs
    by_cases hlt : a.hierarchy < r
    · have h2 : ¬ (r ≤ a.hierarchy) := by omega
      simp only [List.filter_cons, hlt, h2, if_true, if_false, List.cons_append,
        decide_eq_true_eq]
      rw [ih ht]
    · have h2 : r ≤ a.hierarchy := by omega
      have hfilt1 : t.filter (fun s => decide (s.hierarchy < r)) = [] := by
        rw [List.filter_eq_nil_iff]
        intro b hb
        have := ha b hb
        simp only [hierLE] at this
        simp only [decide_eq_true_eq]
        omega
      have hfilt2 : t.filter (fun s => decide (r ≤ s.hierarchy)) = t := by
        rw [List.filter_eq_self]
        intro b hb
        have := ha b hb
        simp only [hierLE] at this
        simp only [decide_eq_true_eq]
        omega
      simp only [List.filter_cons, hlt, h2, if_true, if_false, decide_eq_true_eq]
      simp only [hfilt1, hfilt2, List.nil_append]

/-- Abstract row identity for table contents. -/
abbrev Row := Nat

/-- The postgres database: an ordered association of table names to row
lists.  Only the operations the modelled python performs are provided. -/
structure DB where
  tbls : List (String × List Row)
  deriving Repr, DecidableEq

/-- `db.tables` (the table-existence check used by every idempotency
guard). -/
def DB.tables (db : DB) : List String := db.tbls.map Prod.fst

/-- `db[t].drop()`. -/
def DB.dropT (db : DB) (t : String) : DB :=
  ⟨db.tbls.filter (fun p => p.1 ≠ t)⟩

/-- `CREATE TABLE t AS ...` with the given rows (drops any previous
table of the same name first, as the python always does). -/
def DB.createT (db : DB) (t : String) (rows : List Row) : DB :=
  ⟨(db.dropT t).tbls ++ [(t, rows)]⟩

/-- Row set of a table (empty if the table does not exist). -/
def DB.rowsOf (db : DB) (t : String) : List Row :=
  ((db.tbls.find? (fun p => p.1 == t)).map Prod.snd).getD []

/-- Optional `--alias` filtering shared by `preprocess`, `tile_sources`
and `clean_and_agg_sources` (designatedlands.py:332-333 etc). -/
def aliasFilter (af : Option String) (sources : List SourceRow) : List SourceRow :=
  match af with
  | some a => sources.filter (fun s => s.src_alias = a)
  | none => sources

/-- The source rows `tile_sources` iterates over: non-excluded sources of
nonzero hierarchy (designatedlands.py:340-341). -/
def tileSourcesList (source_csv : List Source) (af : Option String) : List SourceRow :=
  (aliasFilter af (read_csv source_csv)).filter
    (fun s => s.exclude ≠ "T" ∧ s.hierarchy ≠ 0)

/-- `tile_sources` (designatedlands.py:323-351): for each non-excluded
source with nonzero hierarchy, if its tiled table is absent or `force` is
set, drop and recreate the tiled table with the result of the
`prep1_merge_tile_a` query (taken abstractly as `prep1`); otherwise skip
the source entirely. -/
def tile_sources (db : DB) (source_csv : List Source) (af : Option String)
    (force : Bool) (prep1 : SourceRow → List Row) : DB :=
  (tileSourcesList source_csv af).foldl
    (fun db s =>
      if s.tiled_table ∉ db.tables ∨ force then
        (db.dropT s.tiled_table).createT s.tiled_table (prep1 s)
      else db)
    db

/-- The source rows `clean_and_agg_sources` iterates over
(designatedlands.py:368-369). -/
def cleanAggList (source_csv : List Source) (af : Option String) : List SourceRow :=
  (aliasFilter af (read_csv source_csv)).filter
    (fun s => s.exclude ≠ "T" ∧ s.hierarchy ≠ 0)

/-- `clean_and_agg_sources` (designatedlands.py:354-377): same guard
structure as `tile_sources`, keyed on the cleaned table, running the
`prep2_clean_agg` query (abstract `prep2`). -/
def clean_and_agg_sources (db : DB) (source_csv : List Source) (af : Option String)
    (force : Bool) (prep2 : SourceRow → List Row) : DB :=
  (cleanAggList source_csv af).foldl
    (fun db s =>
      if s.cleaned_table ∉ db.tables ∨ force then
        (db.dropT s.cleaned_table).createT s.cleaned_table (prep2 s)
      else db)
    db

/-- The errors the `preprocess` loop can raise: `globals()[function]` on
an unknown name raises `KeyError` (designatedlands.py:405); the
`[...][0]` lookup of the preprocess layer raises `IndexError` when no
source has that alias (designatedlands.py:396-397). -/
inductive PError where
  | keyError (operation : String)
  | indexError (layerAlias : String)
  deriving Repr, DecidableEq

/-- The source rows `preprocess` iterates over: those with a non-empty
`preprocess_operation` (designatedlands.py:390-391).  Note there is no
exclusion or hierarchy filter here. -/
def preprocessList (source_csv : List Source) (af : Option String) : List SourceRow :=
  (aliasFilter af (read_csv source_csv)).filter
    (fun s => s.preprocess_operation ≠ "")

/-- Effect of one successful preprocess operation on the database
(designatedlands.py:405-416): the operation writes the `_preprc` table,
then the raw input table is dropped and recreated from it (the geometry
result is abstract `opResult`). -/
def preprocOverwrite (opResult : SourceRow → List Row) (db : DB) (s : SourceRow) : DB :=
  ((db.createT (s.input_table ++ "_preprc") (opResult s)).dropT s.input_table).createT
    s.input_table (opResult s)

/-- Record one alias as preprocessed in front of a loop result. -/
def recordAlias (a : String) (res : DB × List String × Option PError) :
    DB × List String × Option PError :=
  (res.1, a :: res.2.1, res.2.2)

/-- The body of the `preprocess` loop (designatedlands.py:392-416).
State: the database, the aliases preprocessed so far (in order), and the
error that stopped the run, if any.  For each source, in source order:
- skip if the `_preprc` marker table exists and `force` is unset;
- otherwise look up the preprocess layer among `sources`
  (IndexError if absent), then resolve the operation name in the module
  globals (KeyError if absent) - the resolution happens here, per source,
  not up front;
- on success apply `preprocOverwrite` and record the alias. -/
def preprocessGo (sources : List SourceRow) (globalsNames : List String)
    (force : Bool) (opResult : SourceRow → List Row) :
    DB → List SourceRow → DB × List String × Option PError
  | db, [] => (db, [], none)
  | db, s :: rest =>
    if s.input_table ++ "_preprc" ∈ db.tables ∧ ¬ force then
      preprocessGo sources globalsNames force opResult db rest
    else
      match sources.find? (fun t => t.src_alias = s.preprocess_layer_alias) with
      | none => (db, [], some (PError.indexError s.preprocess_layer_alias))
      | some _lyr =>
        if s.preprocess_operation ∈ globalsNames then
          recordAlias s.src_alias
            (preprocessGo sources globalsNames force opResult
              (preprocOverwrite opResult db s) rest)
        else (db, [], some (PError.keyError s.preprocess_operation))

/-- `preprocess` (designatedlands.py:380-416). -/
def preprocess (db : DB) (source_csv : List Source) (af : Option String)
    (force : Bool) (globalsNames : List String) (opResult : SourceRow → List Row) :
    DB × List String × Option PError :=
  preprocessGo (aliasFilter af (read_csv source_csv)) globalsNames force opResult
    db (preprocessList source_csv af)

/-- The bc_boundary guard inside `process` (designatedlands.py:800-801):
`create_bc_boundary` runs only when the `bc_boundary` table is absent;
its many table writes are abstracted as `build`. -/
def bcBoundaryStage (db : DB) (build : DB → DB) : DB :=
  if "bc_boundary" ∈ db.tables then db else build db

/-- Observable effects of `intersect`, in order: creating the output
table, dispatching one tile's query to the worker pool, the post-pass
delete of empty geometries, and building the map_tile index. -/
inductive IEvent where
  | createOut
  | tileWork (tile : String)
  | deleteEmpty
  | createIndex
  deriving Repr, DecidableEq

/-- A record of the intersection output: its tile and its (abstract)
geometry; the empty set models an empty geometry. -/
structure IRecord where
  map_tile : String
  geom : Finset Nat
  deriving DecidableEq

/-- Column names other than the hard-coded `geom` and `map_tile`
(designatedlands.py:489-491). -/
def nonKeyName (c : String) : Bool := c ≠ "geom" ∧ c ≠ "map_tile"

/-- `intersect` (designatedlands.py:476-544) as a function from the two
input tables' column-name lists, the tile list, and the per-tile result
of the intersection query (abstract `tileResult`), to the ordered effect
trace and either an error or the final output rows:
- `in_names` / `intersect_names`: the non-key column names of each input
  (python builds these as sets; `dedup` models that);
- if the name sets intersect, raise before any effect: no output table is
  created and no tile is dispatched;
- otherwise create the output table, run the query once per tile, delete
  the records whose resulting geometry is empty, then build the index. -/
def intersect (inCols intersectCols : List String) (tiles : List String)
    (tileResult : String → List IRecord) :
    List IEvent × Except String (List IRecord) :=
  -- `(inCols.filter nonKeyName).dedup` is `in_names`,
  -- `(intersectCols.filter nonKeyName).dedup` is `intersect_names`,
  -- their filter-intersection is `non_unique_columns`
  if (inCols.filter nonKeyName).dedup.filter
      (fun c => c ∈ (intersectCols.filter nonKeyName).dedup) ≠ [] then
    ([], Except.error "Input column names must be unique")
  else
    ([IEvent.createOut] ++ tiles.map IEvent.tileWork
       ++ [IEvent.deleteEmpty, IEvent.createIndex],
     Except.ok ((tiles.flatMap tileResult).filter (fun r => r.geom ≠ ∅)))

/-- A record of an output overlay table, as touched by
`tidy_designations`: designation and category attributes plus the
geometry column the function must not modify. -/
structure OutRecord where
  designation : String
  category : Option String
  geom : Finset Nat
  deriving DecidableEq

/-- The `category_lookup` table built by `tidy_designations`
(designatedlands.py:550-558): `(designation key, category)` pairs for the
sources with a non-empty category. -/
def categoryLookupTable (sources : List SourceRow) (designation_key : SourceRow → String) :
    List (String × String) :=
  (sources.filter (fun s => s.category ≠ "")).map
    (fun s => (designation_key s, s.category))

/-- Effect of `tidy_designations` on one record
(designatedlands.py:566-578): first the category is populated from the
lookup (rows without a matching alias keep their category, as SQL
`UPDATE ... FROM` leaves unmatched rows alone), then any designation
beginning with `c01_park_national` is collapsed to exactly that tag.
The geometry column is never mentioned by either statement. -/
def tidyRecord (lut : List (String × String)) (r : OutRecord) : OutRecord :=
  let r1 :=
    match lut.lookup r.designation with
    | some c => { r with category := some c }
    | none => r
  if r1.designation.startsWith "c01_park_national" then
    { r1 with designation := "c01_park_national" }
  else r1

/-- `tidy_designations` (designatedlands.py:547-578) on the rows of
`out_table`. -/
def tidy_designations (sources : List SourceRow) (designation_key : SourceRow → String)
    (out_table : List OutRecord) : List OutRecord :=
  out_table.map (tidyRecord (categoryLookupTable sources designation_key))

/-- A record of the preliminary priority output table: the designation
carried over from the input table (`NULL` for the tiles pseudo-source)
and its abstract geometry. -/
structure PRecord where
  designation : Option String
  geom : Finset Nat
  deriving DecidableEq

/-- The area already covered by the rows of the priority output. -/
def covered (tbl : List PRecord) : Finset Nat :=
  tbl.foldl (fun acc r => acc ∪ r.geom) ∅

/-- Modelled from the spec: the `populate_output` SQL template is not in
the repository; per the spec, for each source it computes "the portion of
its geometry not already covered by any previously inserted
higher-priority record" and inserts "only that remainder".  One call
models the whole per-source scheduler invocation (all tiles), since
cross-source ordering is sequential (`pool.join()` separates sources). -/
def populate_output (tbl : List PRecord) (designation : Option String)
    (g : Finset Nat) : List PRecord :=
  tbl ++ [⟨designation, g \ covered tbl⟩]

/-- The two keys of the dict `process` appends for the gap-filling tiles
layer (designatedlands.py:769-770): the minimal projection of a source
the priority loop consumes. -/
structure PSource where
  cleaned_table : String
  category : Option String
  deriving Repr, DecidableEq

/-- Projection of a real source row to the fields the priority loop
reads. -/
def toPSource (s : SourceRow) : PSource :=
  ⟨s.cleaned_table, some s.category⟩

/-- The synthetic gap-filling pseudo-source backed by the `tiles` table
(designatedlands.py:769-770). -/
def tilesPSource : PSource := ⟨"tiles", none⟩

/-- The source list `process` works from (designatedlands.py:742-743):
non-excluded `read_csv` rows of nonzero hierarchy, in `read_csv` (sorted)
order. -/
def processSources (source_csv : List Source) : List SourceRow :=
  (read_csv source_csv).filter (fun s => s.hierarchy ≠ 0 ∧ s.exclude ≠ "T")

/-- The list the priority loop iterates over (designatedlands.py:758-772):
all of `processSources` when not resuming, only the hierarchies `≥ resume`
when resuming, with the tiles pseudo-source appended last in both cases. -/
def pSourcesOf (source_csv : List Source) (resume : Option Nat) : List PSource :=
  (match resume with
    | none => processSources source_csv
    | some r => (processSources source_csv).filter (fun s => r ≤ s.hierarchy)).map toPSource
  ++ [tilesPSource]

/-- The two output tables `process` populates: the overlaps table rows
(tagged with the tiled table they came from) and the preliminary priority
table. -/
structure ProcOut where
  overlaps : List (String × Row)
  prelim : List PRecord
  deriving DecidableEq

/-- `process` (designatedlands.py:710-797), from table creation through
the priority loop:
- when not resuming, `create_outputs_prelim` recreates both output tables
  empty; when resuming they are left as they are;
- the overlaps loop appends every non-excluded source's tiled rows,
  with no hierarchy-resume filtering (designatedlands.py:748-753);
- the priority loop folds `populate_output` over `pSourcesOf` in list
  order, reading each entry's designation and geometry from its cleaned
  table (abstract `desigOf` / `cleanedGeom`). -/
def process (source_csv : List Source) (resume : Option Nat) (st : ProcOut)
    (tiledRows : String → List Row) (desigOf : String → Option String)
    (cleanedGeom : String → Finset Nat) : ProcOut :=
  let st1 := if resume.isNone then ⟨[], []⟩ else st
  let sources := processSources source_csv
  let st2 : ProcOut :=
    { st1 with
      overlaps := st1.overlaps ++
        sources.flatMap (fun s => (tiledRows s.tiled_table).map (fun r => (s.tiled_table, r))) }
  { st2 with
    prelim := (pSourcesOf source_csv resume).foldl
      (fun tbl p => populate_output tbl (desigOf p.cleaned_table) (cleanedGeom p.cleaned_table))
      st2.prelim }

/-- Auxiliary: a fold whose step fixes the initial state is the
identity. -/
theorem foldl_id {α β : Type} (f : β → α → β) (b : β) :
    ∀ l : List α, (∀ a ∈ l, f b a = b) → l.foldl f b = b := by
  intro l
  induction l with
  | nil => intro _; rfl
  | cons x t ih =>
    intro h
    have hx : f b x = b := h x (List.mem_cons_self x t)
    simp only [List.foldl_cons, hx]
    exact ih (fun a ha => h a (List.mem_cons_of_mem x ha))

/-- C10: `read_csv` returns the csv rows sorted ascending by the
integer-coerced hierarchy, each row extended with the `a`/`b`/`c` table
names built from the two-digit zero-padded hierarchy, an underscore, and
the alias. -/
theorem C10_read_csv_sorted_and_table_names (source_csv : List Source) :
    List.Sorted hierLE (read_csv source_csv) ∧
    (read_csv source_csv).Perm (source_csv.map addTableNames) ∧
    ∀ r ∈ read_csv source_csv,
      r.input_table = "a" ++ zfill2 (toString r.hierarchy) ++ "_" ++ r.src_alias ∧
      r.tiled_table = "b" ++ zfill2 (toString r.hierarchy) ++ "_" ++ r.src_alias ∧
      r.cleaned_table = "c" ++ zfill2 (toString r.hierarchy) ++ "_" ++ r.src_alias := by
  refine ⟨read_csv_sorted source_csv, read_csv_perm source_csv, ?_⟩
  intro r hr
  have hmem : r ∈ source_csv.map addTableNames :=
    (read_csv_perm source_csv).mem_iff.mp hr
  obtain ⟨s, _, rfl⟩ := List.mem_map.mp hmem
  exact ⟨rfl, rfl, rfl⟩

/-- Witness for C10 at a concrete two-row csv. -/
theorem C10_witness :
    let csv := [⟨"parks", 3, "", "", "", "park"⟩, (⟨"er", 1, "", "", "", "er"⟩ : Source)]
    ∀ r ∈ read_csv csv,
      r.input_table = "a" ++ zfill2 (toString r.hierarchy) ++ "_" ++ r.src_alias ∧
      r.tiled_table = "b" ++ zfill2 (toString r.hierarchy) ++ "_" ++ r.src_alias ∧
      r.cleaned_table = "c" ++ zfill2 (toString r.hierarchy) ++ "_" ++ r.src_alias :=
  (C10_read_csv_sorted_and_table_names
    [⟨"parks", 3, "", "", "", "park"⟩, ⟨"er", 1, "", "", "", "er"⟩]).2.2

/-- C1: in a full (non-resume) `process` run the priority loop visits the
non-excluded sources in ascending hierarchy order and the tiles
pseudo-source is appended after all of them, so the final
`populate_output` insertion of the run is the one for the `tiles`
table. -/
theorem C1_priority_order_tiles_last (source_csv : List Source) (st : ProcOut)
    (tiledRows : String → List Row) (desigOf : String → Option String)
    (cleanedGeom : String → Finset Nat) :
    List.Sorted hierLE (processSources source_csv) ∧
    pSourcesOf source_csv none =
      (processSources source_csv).map toPSource ++ [tilesPSource] ∧
    (pSourcesOf source_csv none).getLast? = some tilesPSource ∧
    (process source_csv none st tiledRows desigOf cleanedGeom).prelim =
      populate_output
        (((processSources source_csv).map toPSource).foldl
          (fun tbl p =>
            populate_output tbl (desigOf p.cleaned_table) (cleanedGeom p.cleaned_table)) [])
        (desigOf "tiles") (cleanedGeom "tiles") := by
  refine ⟨List.Pairwise.filter _ (read_csv_sorted source_csv), rfl, ?_, ?_⟩
  · unfold pSourcesOf
    exact List.getLast?_concat _
  · show ((pSourcesOf source_csv none).foldl
        (fun tbl p =>
          populate_output tbl (desigOf p.cleaned_table) (cleanedGeom p.cleaned_table)) [])
      = _
    unfold pSourcesOf
    rw [List.foldl_append]
    rfl

/-- C3: when the two inputs of `intersect` share a column name other
than `geom` and `map_tile`, the call raises before producing any effect:
no output table is created and no tile is dispatched to the pool. -/
theorem C3_column_collision_fails_fast (inCols intersectCols : List String)
    (tiles : List String) (tileResult : String → List IRecord) (c : String)
    (hin : c ∈ inCols) (hint : c ∈ intersectCols) (hkey : nonKeyName c = true) :
    intersect inCols intersectCols tiles tileResult =
      ([], Except.error "Input column names must be unique") := by
  have hc1 : c ∈ (inCols.filter nonKeyName).dedup :=
    List.mem_dedup.mpr (List.mem_filter.mpr ⟨hin, hkey⟩)
  have hc2 : c ∈ (intersectCols.filter nonKeyName).dedup :=
    List.mem_dedup.mpr (List.mem_filter.mpr ⟨hint, hkey⟩)
  have hmem : c ∈ (inCols.filter nonKeyName).dedup.filter
      (fun c => c ∈ (intersectCols.filter nonKeyName).dedup) :=
    List.mem_filter.mpr ⟨hc1, by simpa using hc2⟩
  have hne : (inCols.filter nonKeyName).dedup.filter
      (fun c => c ∈ (intersectCols.filter nonKeyName).dedup) ≠ [] :=
    List.ne_nil_of_mem hmem
  unfold intersect
  rw [if_pos hne]

/-- Witness for C3: tables sharing the column `designation`. -/
theorem C3_witness :
    intersect ["designation", "geom", "map_tile"] ["designation", "id"]
        ["092B"] (fun _ => []) =
      ([], Except.error "Input column names must be unique") :=
  C3_column_collision_fails_fast _ _ _ _ "designation"
    (by decide) (by decide) (by decide)

/-- C6: with no colliding column names, `intersect` completes with the
trace create-table, per-tile work, delete-empty, create-index (the
delete strictly before the index build), and its finished output
contains no record with an empty geometry. -/
theorem C6_intersect_deletes_empty_before_index (inCols intersectCols : List String)
    (tiles : List String) (tileResult : String → List IRecord)
    (hnc : (inCols.filter nonKeyName).dedup.filter
        (fun c => c ∈ (intersectCols.filter nonKeyName).dedup) = []) :
    intersect inCols intersectCols tiles tileResult =
      ([IEvent.createOut] ++ tiles.map IEvent.tileWork
         ++ [IEvent.deleteEmpty, IEvent.createIndex],
       Except.ok ((tiles.flatMap tileResult).filter (fun r => r.geom ≠ ∅))) ∧
    ∀ res, (intersect inCols intersectCols tiles tileResult).2 = Except.ok res →
      ∀ rec ∈ res, rec.geom ≠ ∅ := by
  have heq : intersect inCols intersectCols tiles tileResult =
      ([IEvent.createOut] ++ tiles.map IEvent.tileWork
         ++ [IEvent.deleteEmpty, IEvent.createIndex],
       Except.ok ((tiles.flatMap tileResult).filter (fun r => r.geom ≠ ∅))) := by
    unfold intersect
    rw [if_neg (fun h => h hnc)]
  refine ⟨heq, ?_⟩
  intro res hres rec hrec
  rw [heq] at hres
  simp only [Except.ok.injEq] at hres
  subst hres
  have := List.of_mem_filter hrec
  simpa using this

/-- Witness for C6: a tile result containing one empty and one non-empty
geometry; the finished output keeps only the non-empty one. -/
theorem C6_witness :
    (intersect ["designation", "geom", "map_tile"] ["boundary"] ["092B"]
        (fun t => [⟨t, ∅⟩, ⟨t, {1, 2}⟩])).2 = Except.ok [⟨"092B", {1, 2}⟩] ∧
    ∀ rec ∈ [(⟨"092B", ({1, 2} : Finset Nat)⟩ : IRecord)], rec.geom ≠ ∅ := by
  have h := C6_intersect_deletes_empty_before_index
    ["designation", "geom", "map_tile"] ["boundary"] ["092B"]
    (fun t => [⟨t, ∅⟩, ⟨t, {1, 2}⟩]) (by decide)
  refine ⟨?_, ?_⟩
  · rw [h.1]
    rfl
  · exact fun rec hrec => h.2 [⟨"092B", {1, 2}⟩] (by rw [h.1]; rfl) rec hrec

/-- Auxiliary: the priority output of `process` is the fold of
`populate_output` over the resume-filtered source list, from the
recreated-empty table on a full run and from the pre-existing table on a
resumed run. -/
theorem process_prelim_eq (source_csv : List Source) (resume : Option Nat)
    (st : ProcOut) (tiledRows : String → List Row) (desigOf : String → Option String)
    (cleanedGeom : String → Finset Nat) :
    (process source_csv resume st tiledRows desigOf cleanedGeom).prelim =
      (pSourcesOf source_csv resume).foldl
        (fun tbl p =>
          populate_output tbl (desigOf p.cleaned_table) (cleanedGeom p.cleaned_table))
        (if resume.isNone then [] else st.prelim) := by
  cases resume <;> rfl

/-- Auxiliary: the overlaps output of `process` is the previous contents
(empty on a full run) with every non-excluded source's tiled rows
appended, independent of the resume argument. -/
theorem process_overlaps_eq (source_csv : List Source) (resume : Option Nat)
    (st : ProcOut) (tiledRows : String → List Row) (desigOf : String → Option String)
    (cleanedGeom : String → Finset Nat) :
    (process source_csv resume st tiledRows desigOf cleanedGeom).overlaps =
      (if resume.isNone then [] else st.overlaps) ++
        (processSources source_csv).flatMap
          (fun s => (tiledRows s.tiled_table).map (fun row => (s.tiled_table, row))) := by
  cases resume <;> rfl

/-- C2: `process` with `resume = r` runs the priority loop over exactly
the non-excluded sources of hierarchy `≥ r` followed by the tiles
pseudo-source, and - provided the resumed table holds exactly the rows
the sources of hierarchy `< r` would have committed - a resumed run's
priority output equals an uninterrupted full run's. -/
theorem C2_resume_consistency (source_csv : List Source) (r : Nat)
    (stFull stRes : ProcOut) (tiledRows : String → List Row)
    (desigOf : String → Option String) (cleanedGeom : String → Finset Nat)
    (hcommitted : stRes.prelim =
      (((processSources source_csv).filter (fun s => s.hierarchy < r)).map toPSource).foldl
        (fun tbl p =>
          populate_output tbl (desigOf p.cleaned_table) (cleanedGeom p.cleaned_table)) []) :
    pSourcesOf source_csv (some r) =
      ((processSources source_csv).filter (fun s => r ≤ s.hierarchy)).map toPSource
        ++ [tilesPSource] ∧
    (process source_csv (some r) stRes tiledRows desigOf cleanedGeom).prelim =
      (process source_csv none stFull tiledRows desigOf cleanedGeom).prelim := by
  refine ⟨rfl, ?_⟩
  have hs : List.Sorted hierLE (processSources source_csv) :=
    List.Pairwise.filter _ (read_csv_sorted source_csv)
  have hsplit := sorted_filter_split r (processSources source_csv) hs
  rw [process_prelim_eq, process_prelim_eq]
  simp only [Option.isNone_some, Option.isNone_none, Bool.false_eq_true,
    if_true, if_false, ite_true, ite_false]
  rw [hcommitted]
  have l1 : pSourcesOf source_csv (some r) =
      ((processSources source_csv).filter (fun s => r ≤ s.hierarchy)).map toPSource
        ++ [tilesPSource] := rfl
  have l2 : pSourcesOf source_csv none =
      (processSources source_csv).map toPSource ++ [tilesPSource] := rfl
  rw [l1, l2, ← List.foldl_append]
  conv_rhs => rw [← hsplit]
  rw [List.map_append, List.append_assoc]

/-- C9: on a resumed run `process` does not recreate the output tables,
and the overlaps loop ignores the resume hierarchy: every non-excluded
source's tiled rows are appended to whatever the overlaps table already
holds (so a run interrupted after the overlaps loop and then resumed
holds every source's rows twice), while the resume filter restricts only
the priority loop's source list. -/
theorem C9_resume_reappends_overlaps (source_csv : List Source) (r : Nat)
    (st : ProcOut) (tiledRows : String → List Row)
    (desigOf : String → Option String) (cleanedGeom : String → Finset Nat) :
    (process source_csv (some r) st tiledRows desigOf cleanedGeom).overlaps =
      st.overlaps ++ (processSources source_csv).flatMap
        (fun s => (tiledRows s.tiled_table).map (fun row => (s.tiled_table, row))) ∧
    pSourcesOf source_csv (some r) =
      ((processSources source_csv).filter (fun s => r ≤ s.hierarchy)).map toPSource
        ++ [tilesPSource] ∧
    (st.overlaps = (processSources source_csv).flatMap
        (fun s => (tiledRows s.tiled_table).map (fun row => (s.tiled_table, row))) →
      (process source_csv (some r) st tiledRows desigOf cleanedGeom).overlaps =
        (processSources source_csv).flatMap
          (fun s => (tiledRows s.tiled_table).map (fun row => (s.tiled_table, row))) ++
        (processSources source_csv).flatMap
          (fun s => (tiledRows s.tiled_table).map (fun row => (s.tiled_table, row)))) := by
  have h1 : (process source_csv (some r) st tiledRows desigOf cleanedGeom).overlaps =
      st.overlaps ++ (processSources source_csv).flatMap
        (fun s => (tiledRows s.tiled_table).map (fun row => (s.tiled_table, row))) := by
    rw [process_overlaps_eq]
    rfl
  refine ⟨h1, rfl, ?_⟩
  intro hst
  rw [h1, hst]

/-- Auxiliary: the preprocess loop is a no-op when every source's
`_preprc` marker table is already present and `force` is unset. -/
theorem preprocessGo_all_skipped (sources : List SourceRow) (globalsNames : List String)
    (opResult : SourceRow → List Row) (db : DB) :
    ∀ l : List SourceRow, (∀ s ∈ l, s.input_table ++ "_preprc" ∈ db.tables) →
      preprocessGo sources globalsNames false opResult db l = (db, [], none) := by
  intro l
  induction l with
  | nil => intro _; rfl
  | cons s t ih =>
    intro h
    have hm : s.input_table ++ "_preprc" ∈ db.tables := h s (List.mem_cons_self s t)
    show (if s.input_table ++ "_preprc" ∈ db.tables ∧ ¬ (false : Bool) then
        preprocessGo sources globalsNames false opResult db t
      else _) = _
    rw [if_pos ⟨hm, by simp⟩]
    exact ih (fun a ha => h a (List.mem_cons_of_mem s ha))

/-- C5: with `force` unset, each stage skips the work whose marker table
already exists: when every tiled table is present `tile_sources` returns
the database unchanged; likewise `clean_and_agg_sources` for cleaned
tables and `preprocess` for `_preprc` markers (which also preprocesses
nothing and raises nothing); and the bc_boundary build does not run when
`bc_boundary` exists.  Every existing table's row set is left unchanged. -/
theorem C5_stage_idempotence (db : DB) (source_csv : List Source) (af : Option String)
    (prep1 prep2 : SourceRow → List Row) (globalsNames : List String)
    (opResult : SourceRow → List Row) (build : DB → DB)
    (h1 : ∀ s ∈ tileSourcesList source_csv af, s.tiled_table ∈ db.tables)
    (h2 : ∀ s ∈ cleanAggList source_csv af, s.cleaned_table ∈ db.tables)
    (h3 : ∀ s ∈ preprocessList source_csv af, s.input_table ++ "_preprc" ∈ db.tables)
    (h4 : "bc_boundary" ∈ db.tables) :
    tile_sources db source_csv af false prep1 = db ∧
    clean_and_agg_sources db source_csv af false prep2 = db ∧
    preprocess db source_csv af false globalsNames opResult = (db, [], none) ∧
    bcBoundaryStage db build = db := by
  refine ⟨?_, ?_, ?_, ?_⟩
  · unfold tile_sources
    apply foldl_id
    intro s hs
    rw [if_neg]
    rintro (hn | hb)
    · exact hn (h1 s hs)
    · simp at hb
  · unfold clean_and_agg_sources
    apply foldl_id
    intro s hs
    rw [if_neg]
    rintro (hn | hb)
    · exact hn (h2 s hs)
    · simp at hb
  · exact preprocessGo_all_skipped _ _ _ _ _ h3
  · unfold bcBoundaryStage
    rw [if_pos h4]

/-- C7: a source with hierarchy 0 or the exclude flag set appears in
none of the stage source lists: not in the tiling list, not in the
clean/aggregate list, not in the overlaps loop's list, and every entry
of the priority loop's list is either the tiles pseudo-source or the
projection of a non-excluded, nonzero-hierarchy source. -/
theorem C7_excluded_sources_bypass_all_stages (source_csv : List Source)
    (af : Option String) (s : SourceRow)
    (h : s.hierarchy = 0 ∨ s.exclude = "T") :
    s ∉ tileSourcesList source_csv af ∧
    s ∉ cleanAggList source_csv af ∧
    s ∉ processSources source_csv ∧
    ∀ resume : Option Nat, ∀ p ∈ pSourcesOf source_csv resume,
      p = tilesPSource ∨
        ∃ t ∈ processSources source_csv,
          t.hierarchy ≠ 0 ∧ t.exclude ≠ "T" ∧ p = toPSource t := by
  have hnot : ∀ {l : List SourceRow},
      s ∈ l.filter (fun x => x.exclude ≠ "T" ∧ x.hierarchy ≠ 0) → False := by
    intro l hmem
    have hc := List.of_mem_filter hmem
    simp only [decide_eq_true_eq] at hc
    rcases h with h0 | hT
    · exact hc.2 h0
    · exact hc.1 hT
  have hnot' : s ∈ processSources source_csv → False := by
    intro hmem
    have hc := List.of_mem_filter hmem
    simp only [decide_eq_true_eq] at hc
    rcases h with h0 | hT
    · exact hc.1 h0
    · exact hc.2 hT
  refine ⟨fun hmem => hnot hmem, fun hmem => hnot hmem, fun hmem => hnot' hmem, ?_⟩
  intro resume p hp
  unfold pSourcesOf at hp
  rcases List.mem_append.mp hp with hleft | hright
  · obtain ⟨t, ht, rfl⟩ := List.mem_map.mp hleft
    right
    have htp : t ∈ processSources source_csv := by
      cases resume with
      | none => exact ht
      | some r => exact List.mem_of_mem_filter ht
    have hc := List.of_mem_filter htp
    simp only [decide_eq_true_eq] at hc
    exact ⟨t, htp, hc.1, hc.2, rfl⟩
  · left
    simpa using hright

/-- C8: `tidy_designations` rewrites only the attribute columns: the
geometry of every record is untouched, every designation beginning with
`c01_park_national` is collapsed to exactly that value (others are left
alone), and the category column is populated from the alias→category
lookup built from the source list (rows without a matching alias keep
their category). -/
theorem C8_tidy_touches_attributes_only (sources : List SourceRow)
    (key : SourceRow → String) (tbl : List OutRecord) :
    (tidy_designations sources key tbl).map (fun r => r.geom) =
      tbl.map (fun r => r.geom) ∧
    tidy_designations sources key tbl =
      tbl.map (tidyRecord (categoryLookupTable sources key)) ∧
    ∀ r : OutRecord,
      (tidyRecord (categoryLookupTable sources key) r).geom = r.geom ∧
      (r.designation.startsWith "c01_park_national" = true →
        (tidyRecord (categoryLookupTable sources key) r).designation =
          "c01_park_national") ∧
      (r.designation.startsWith "c01_park_national" = false →
        (tidyRecord (categoryLookupTable sources key) r).designation =
          r.designation) ∧
      (∀ c, (categoryLookupTable sources key).lookup r.designation = some c →
        (tidyRecord (categoryLookupTable sources key) r).category = some c) ∧
      ((categoryLookupTable sources key).lookup r.designation = none →
        (tidyRecord (categoryLookupTable sources key) r).category = r.category) := by
  set lut := categoryLookupTable sources key with hlut
  have hgeom : ∀ r : OutRecord, (tidyRecord lut r).geom = r.geom := by
    intro r
    unfold tidyRecord
    cases lut.lookup r.designation <;> dsimp only [] <;> split <;> rfl
  refine ⟨?_, rfl, ?_⟩
  · unfold tidy_designations
    rw [List.map_map]
    exact List.map_congr_left (fun r _ => hgeom r)
  · intro r
    refine ⟨hgeom r, ?_, ?_, ?_, ?_⟩
    · intro hsw
      unfold tidyRecord
      cases hl : lut.lookup r.designation <;> dsimp only [] <;> rw [if_pos hsw]
    · intro hsw
      unfold tidyRecord
      cases hl : lut.lookup r.designation <;> dsimp only [] <;>
        rw [if_neg (by rw [hsw]; exact Bool.false_ne_true)]
    · intro c hc
      unfold tidyRecord
      rw [hc]
      dsimp only []
      split <;> rfl
    · intro hc
      unfold tidyRecord
      rw [hc]
      dsimp only []
      split <;> rfl

/-- Fixture for C4: a source naming an operation outside any supported
set, whose `_preprc` marker table already exists. -/
def c4src : Source := ⟨"bad", 1, "", "bogus", "parks", ""⟩

/-- Fixture for C4: a database already holding the marker table of
`c4src`. -/
def c4db : DB := ⟨[("a01_bad_preprc", [])]⟩

/-- C4 counterexample: `preprocess` on a source whose
`preprocess_operation` is `"bogus"` - not in the supported set (here
`["clip"]`) - completes without raising any error, because the source's
`_preprc` marker table exists and the dispatch is only resolved when a
source is actually preprocessed; the claim that such a run always fails
with an up-front configuration error is false. -/
theorem C4_counterexample :
    c4src.preprocess_operation = "bogus" ∧ ("bogus" ∉ ["clip"]) ∧
    preprocess c4db [c4src] none false ["clip"] (fun _ => []) =
      (c4db, [], none) := by
  refine ⟨rfl, by decide, ?_⟩
  rfl

/-- C4 amended: dispatch on the preprocess operation name happens per
source at the moment that source is preprocessed, not up front.  If a
first source `g` is valid and a second source `b` names an unknown
operation (both actually due for preprocessing), the loop fully
preprocesses `g` - writing its tables and recording its alias - and only
then fails with `KeyError` on `b`'s operation; and any source whose
marker table exists is skipped with no error at all, whatever its
operation names. -/
theorem C4_amended_dispatch_per_source (sources : List SourceRow)
    (globalsNames : List String) (opResult : SourceRow → List Row) (db : DB)
    (g b lyr_g lyr_b : SourceRow)
    (hgmark : g.input_table ++ "_preprc" ∉ db.tables)
    (hglyr : sources.find? (fun t => t.src_alias = g.preprocess_layer_alias) = some lyr_g)
    (hgop : g.preprocess_operation ∈ globalsNames)
    (hbmark : b.input_table ++ "_preprc" ∉ (preprocOverwrite opResult db g).tables)
    (hblyr : sources.find? (fun t => t.src_alias = b.preprocess_layer_alias) = some lyr_b)
    (hbop : b.preprocess_operation ∉ globalsNames) :
    preprocessGo sources globalsNames false opResult db [g, b] =
      (preprocOverwrite opResult db g, [g.src_alias],
        some (PError.keyError b.preprocess_operation)) ∧
    ∀ (s : SourceRow) (db' : DB), s.input_table ++ "_preprc" ∈ db'.tables →
      preprocessGo sources globalsNames false opResult db' [s] = (db', [], none) := by
  constructor
  · have hb2 : preprocessGo sources globalsNames false opResult
        (preprocOverwrite opResult db g) [b] =
        (preprocOverwrite opResult db g, [], some (PError.keyError b.preprocess_operation)) := by
      show (if b.input_table ++ "_preprc" ∈ (preprocOverwrite opResult db g).tables
            ∧ ¬ (false : Bool) then
          preprocessGo sources globalsNames false opResult (preprocOverwrite opResult db g) []
        else _) = _
      rw [if_neg (fun hh => hbmark hh.1), hblyr]
      show (if b.preprocess_operation ∈ globalsNames then _ else _) = _
      rw [if_neg hbop]
    show (if g.input_table ++ "_preprc" ∈ db.tables ∧ ¬ (false : Bool) then
        preprocessGo sources globalsNames false opResult db [b]
      else _) = _
    rw [if_neg (fun hh => hgmark hh.1), hglyr]
    show (if g.preprocess_operation ∈ globalsNames then _ else _) = _
    rw [if_pos hgop, hb2]
    rfl
  · intro s db' hmark
    exact preprocessGo_all_skipped sources globalsNames opResult db' [s]
      (fun a ha => by rwa [List.mem_singleton.mp ha])

/-- Witness for C4's amended theorem at concrete sources: the valid
`clip` source is preprocessed first, then the loop fails on the unknown
operation `bogus`. -/
theorem C4_amended_witness :
    let g := addTableNames ⟨"good", 1, "", "clip", "ref", ""⟩
    let b := addTableNames ⟨"bad", 2, "", "bogus", "ref", ""⟩
    let lyr := addTableNames ⟨"ref", 0, "", "", "", ""⟩
    preprocessGo [g, b, lyr] ["clip"] false (fun _ => [7]) ⟨[]⟩ [g, b] =
      (preprocOverwrite (fun _ => [7]) ⟨[]⟩ g, [g.src_alias],
        some (PError.keyError b.preprocess_operation)) ∧
    ∀ (s : SourceRow) (db' : DB), s.input_table ++ "_preprc" ∈ db'.tables →
      preprocessGo [g, b, lyr] ["clip"] false (fun _ => [7]) db' [s] = (db', [], none) :=
  C4_amended_dispatch_per_source _ _ _ _ _ _
    (addTableNames ⟨"ref", 0, "", "", "", ""⟩) (addTableNames ⟨"ref", 0, "", "", "", ""⟩)
    (by decide) (by decide) (by decide) (by decide) (by decide) (by decide)

/-- Fixture: a two-source csv (hierarchies 1 and 2, nothing excluded). -/
def wCsv : List Source :=
  [⟨"parks", 1, "", "", "", "park"⟩, ⟨"er", 2, "", "", "", "er"⟩]

/-- Fixture: designations read off the cleaned tables. -/
def wDesig : String → Option String := fun t => some t

/-- Fixture: concrete geometries for the cleaned tables and the tile
grid. -/
def wGeom : String → Finset Nat := fun t =>
  if t = "tiles" then {1, 2, 3, 4} else if t = "c01_parks" then {1, 2} else {2, 3}

/-- Fixture: the priority rows committed by the hierarchy-1 stage alone
(the state an interrupted run leaves before resuming at hierarchy 2). -/
def wLower : List PRecord :=
  (((processSources wCsv).filter (fun s => s.hierarchy < 2)).map toPSource).foldl
    (fun tbl p => populate_output tbl (wDesig p.cleaned_table) (wGeom p.cleaned_table)) []

/-- Witness for C2: resuming the two-source run at hierarchy 2 from the
committed hierarchy-1 rows reproduces the full run's priority output. -/
theorem C2_witness :
    (⟨[], wLower⟩ : ProcOut).prelim =
      (((processSources wCsv).filter (fun s => s.hierarchy < 2)).map toPSource).foldl
        (fun tbl p => populate_output tbl (wDesig p.cleaned_table) (wGeom p.cleaned_table))
        [] ∧
    (process wCsv (some 2) ⟨[], wLower⟩ (fun _ => []) wDesig wGeom).prelim =
      (process wCsv none ⟨[], wLower⟩ (fun _ => []) wDesig wGeom).prelim :=
  ⟨rfl,
    (C2_resume_consistency wCsv 2 ⟨[], wLower⟩ ⟨[], wLower⟩ (fun _ => [])
      wDesig wGeom rfl).2⟩

/-- Fixture for C5: a database holding every marker table the two-source
csv needs, plus `bc_boundary`. -/
def wDb5 : DB :=
  ⟨[("b01_parks", [0]), ("b02_er", [1]), ("c01_parks", [2]), ("c02_er", [3]),
    ("bc_boundary", [4])]⟩

/-- Witness for C5: with every marker present and no force flag, all
four stages leave the database untouched. -/
theorem C5_witness :
    (∀ s ∈ tileSourcesList wCsv none, s.tiled_table ∈ wDb5.tables) ∧
    (tile_sources wDb5 wCsv none false (fun _ => []) = wDb5 ∧
      clean_and_agg_sources wDb5 wCsv none false (fun _ => []) = wDb5 ∧
      preprocess wDb5 wCsv none false ["clip"] (fun _ => []) = (wDb5, [], none) ∧
      bcBoundaryStage wDb5 (fun db => db.createT "bc_boundary" []) = wDb5) :=
  ⟨by decide,
    C5_stage_idempotence wDb5 wCsv none (fun _ => []) (fun _ => []) ["clip"]
      (fun _ => []) (fun db => db.createT "bc_boundary" [])
      (by decide) (by decide) (by decide) (by decide)⟩

/-- Fixture for C7: a csv holding one live source and one hierarchy-0
reference source. -/
def wCsv7 : List Source :=
  [⟨"parks", 1, "", "", "", "park"⟩, ⟨"old", 0, "", "", "", ""⟩]

/-- Fixture for C7: the enriched row of the hierarchy-0 source. -/
def wEx7 : SourceRow := addTableNames ⟨"old", 0, "", "", "", ""⟩

/-- Witness for C7: the hierarchy-0 source is in none of the stage
lists. -/
theorem C7_witness :
    (wEx7.hierarchy = 0 ∨ wEx7.exclude = "T") ∧
    (wEx7 ∉ tileSourcesList wCsv7 none ∧
      wEx7 ∉ cleanAggList wCsv7 none ∧
      wEx7 ∉ processSources wCsv7 ∧
      ∀ resume : Option Nat, ∀ p ∈ pSourcesOf wCsv7 resume,
        p = tilesPSource ∨
          ∃ t ∈ processSources wCsv7,
            t.hierarchy ≠ 0 ∧ t.exclude ≠ "T" ∧ p = toPSource t) :=
  ⟨Or.inl rfl,
    C7_excluded_sources_bypass_all_stages wCsv7 none wEx7 (Or.inl rfl)⟩

/-- Witness for C8: a national-park record's geometry survives
`tidy_designations` unchanged while its designation is collapsed. -/
theorem C8_witness :
    let sources := [addTableNames ⟨"parks", 1, "", "", "", "park"⟩]
    let key : SourceRow → String := fun s => s.cleaned_table
    let tbl : List OutRecord := [⟨"c01_park_national_glacier", none, {5}⟩]
    (tidy_designations sources key tbl).map (fun r => r.geom) =
        tbl.map (fun r => r.geom) ∧
      tidy_designations sources key tbl =
        tbl.map (tidyRecord (categoryLookupTable sources key)) ∧
      ∀ r : OutRecord,
        (tidyRecord (categoryLookupTable sources key) r).geom = r.geom ∧
        (r.designation.startsWith "c01_park_national" = true →
          (tidyRecord (categoryLookupTable sources key) r).designation =
            "c01_park_national") ∧
        (r.designation.startsWith "c01_park_national" = false →
          (tidyRecord (categoryLookupTable sources key) r).designation =
            r.designation) ∧
        (∀ c, (categoryLookupTable sources key).lookup r.designation = some c →
          (tidyRecord (categoryLookupTable sources key) r).category = some c) ∧
        ((categoryLookupTable sources key).lookup r.designation = none →
          (tidyRecord (categoryLookupTable sources key) r).category = r.category) :=
  C8_tidy_touches_attributes_only
    [addTableNames ⟨"parks", 1, "", "", "", "park"⟩]
    (fun s => s.cleaned_table)
    [⟨"c01_park_national_glacier", none, {5}⟩]

/-- Witness for C9: resuming at hierarchy 2 appends both sources' tiled
rows to the overlaps table even though only hierarchy ≥ 2 feeds the
priority loop. -/
theorem C9_witness :
    (process wCsv (some 2) ⟨[("b01_parks", 0)], []⟩ (fun _ => [0]) wDesig wGeom).overlaps =
      [("b01_parks", 0)] ++ (processSources wCsv).flatMap
        (fun s => ((fun _ => [0]) s.tiled_table).map (fun row => (s.tiled_table, row))) ∧
    pSourcesOf wCsv (some 2) =
      ((processSources wCsv).filter (fun s => 2 ≤ s.hierarchy)).map toPSource
        ++ [tilesPSource] :=
  ⟨(C9_resume_reappends_overlaps wCsv 2 ⟨[("b01_parks", 0)], []⟩ (fun _ => [0])
      wDesig wGeom).1,
    (C9_resume_reappends_overlaps wCsv 2 ⟨[("b01_parks", 0)], []⟩ (fun _ => [0])
      wDesig wGeom).2.1⟩

end DesignatedLands
